import Mathlib

set_option maxRecDepth 10000

/-!
Shallow embedding of `convertobmp.py`, a tool that converts images to
fixed-palette BMP files for a 7-color e-paper display.

The Python source delegates pixel work to the PIL library; where a claim
depends on the semantics of a PIL or pathlib operation that the source
calls, that operation is modelled here from its documented behaviour, with
all arguments taken from the call site in the source.  Resampling filters
(Lanczos) are modelled as an abstract sampling kernel, universally
quantified in the theorems, because no claim depends on the filter itself.
-/

namespace ConvertOBMP

/-- An RGB triple, one byte per channel. -/
abbrev RGB := Nat × Nat × Nat

/-- `EPAPER_PALETTE` from the source (lines 10-18): the flat
channel list for the 7 display colors, followed by `(0,0,0) * 249`
(249 repetitions of the black triple) to pad the table to 256 entries. -/
def EPAPER_PALETTE : List Nat :=
  [0, 0, 0,
   255, 255, 255,
   255, 255, 0,
   255, 0, 0,
   0, 0, 0,
   0, 0, 255,
   0, 255, 0]
  ++ (List.replicate 249 ([0, 0, 0] : List Nat)).flatten

/-- Group a flat channel list into RGB triples, as an indexed-color
table stores them (PIL `putpalette` consumes the flat list in groups
of three). -/
def paletteEntries : List Nat → List RGB
  | r :: g :: b :: rest => (r, g, b) :: paletteEntries rest
  | _ => []

/-- The 256-entry RGB table that `pal_image.putpalette(EPAPER_PALETTE)`
installs (source line 59). -/
def epaperEntries : List RGB := paletteEntries EPAPER_PALETTE

/-- PIL `convert('RGB')` on a palettized ("P" mode) pixel: the stored
index is looked up in the installed palette (source line 62).  P-mode
pixels are single bytes, so meaningful indices are below 256; the
default is never reached for such an index. -/
def convertPtoRGB (idx : Nat) : RGB := epaperEntries.getD idx (0, 0, 0)

/-- Target-resolution selection from `convert_image` (source lines
37-46): an explicit direction override wins, otherwise orientation is
auto-detected from the source dimensions, `width > height` selecting
landscape and everything else (equality included) portrait. -/
def targetSize (direction : Option String) (width height : Nat) : Nat × Nat :=
  if direction = some "landscape" then (800, 480)
  else if direction = some "portrait" then (480, 800)
  else if width > height then (800, 480)
  else (480, 800)

/-- A decoded raster image: dimensions plus a pixel function.  Pixel
values outside `width × height` are irrelevant. -/
structure Img where
  width : Nat
  height : Nat
  pix : Nat → Nat → RGB

/-- A real-valued crop box `(left, top, right, bottom)` as PIL passes
to `Image.resize(..., box=...)`. -/
abbrev Box := Rat × Rat × Rat × Rat

/-- The whole extent of an image as a crop box. -/
def fullBox (img : Img) : Box := (0, 0, (img.width : Rat), (img.height : Rat))

/-- An abstract resampling kernel: given the source image, a crop box
and the destination size, it produces the destination pixels.  This
stands for PIL resampling (the source uses Lanczos); the theorems
below hold for every kernel. -/
abbrev Kernel := Img → Box → Nat × Nat → Nat → Nat → RGB

/-- PIL `Image.resize(size, box=box)`: the result has exactly the
requested size; its pixels come from resampling the boxed region. -/
def resizeBox (k : Kernel) (img : Img) (box : Box) (size : Nat × Nat) : Img :=
  { width := size.1, height := size.2, pix := k img box size }

/-- Python `round(num / den)` for nonnegative `num` and positive
`den`: round half to even. -/
def pyRound (num den : Nat) : Nat :=
  if 2 * (num % den) < den then num / den
  else if den < 2 * (num % den) then num / den + 1
  else if (num / den) % 2 = 0 then num / den else num / den + 1

/-- Size selection of PIL `ImageOps.contain(image, size)`: compare the
image aspect to the destination aspect (`w/h` vs `tw/th`, i.e.
`w*th` vs `h*tw`); if the image is relatively wider, keep the target
width and round the proportional height, otherwise keep the target
height and round the proportional width. -/
def containSize (w h tw th : Nat) : Nat × Nat :=
  if w * th = h * tw then (tw, th)
  else if h * tw < w * th then (tw, pyRound (h * tw) w)
  else (pyRound (w * th) h, th)

/-- Paste geometry `(ox, oy, cw, ch)` of PIL
`ImageOps.pad(image, size, color, centering=(0.5, 0.5))` (called at
source line 53): the contained image of size `(cw, ch)` is pasted at
offset `(ox, oy)`; only the axis on which the contained image is
smaller gets a (half-rounded) offset. -/
def padGeom (w h tw th : Nat) : Nat × Nat × Nat × Nat :=
  if (containSize w h tw th).1 = tw ∧ (containSize w h tw th).2 = th then
    (0, 0, (containSize w h tw th).1, (containSize w h tw th).2)
  else if (containSize w h tw th).1 ≠ tw then
    (pyRound (tw - (containSize w h tw th).1) 2, 0,
     (containSize w h tw th).1, (containSize w h tw th).2)
  else
    (0, pyRound (th - (containSize w h tw th).2) 2,
     (containSize w h tw th).1, (containSize w h tw th).2)

/-- PIL `ImageOps.pad`: a canvas of exactly the requested size,
background `color`, with the uniformly contained image pasted at the
centered offset. -/
def pad (k : Kernel) (img : Img) (size : Nat × Nat) (color : RGB) : Img :=
  let g := padGeom img.width img.height size.1 size.2
  { width := size.1
    height := size.2
    pix := fun x y =>
      if g.1 ≤ x ∧ x < g.1 + g.2.2.1 ∧ g.2.1 ≤ y ∧ y < g.2.1 + g.2.2.2 then
        k img (fullBox img) (g.2.2.1, g.2.2.2) (x - g.1) (y - g.2.1)
      else color }

/-- The fit-inside-and-centered geometry that mode `cut` guarantees:
the pasted content box fits inside the target on both axes, touches
it on one axis (uniform scaling), lies within the canvas, and its
offset splits each axis margin into halves differing by at most one
pixel. -/
def padGeomFits (w h tw th : Nat) : Prop :=
  (padGeom w h tw th).2.2.1 ≤ tw ∧
  (padGeom w h tw th).2.2.2 ≤ th ∧
  ((padGeom w h tw th).2.2.1 = tw ∨ (padGeom w h tw th).2.2.2 = th) ∧
  (padGeom w h tw th).1 + (padGeom w h tw th).2.2.1 ≤ tw ∧
  (padGeom w h tw th).2.1 + (padGeom w h tw th).2.2.2 ≤ th ∧
  2 * (padGeom w h tw th).1 ≤ tw - (padGeom w h tw th).2.2.1 + 1 ∧
  tw - (padGeom w h tw th).2.2.1 ≤ 2 * (padGeom w h tw th).1 + 1 ∧
  2 * (padGeom w h tw th).2.1 ≤ th - (padGeom w h tw th).2.2.2 + 1 ∧
  th - (padGeom w h tw th).2.2.2 ≤ 2 * (padGeom w h tw th).2.1 + 1

/-- Whether pixel `(x, y)` of the padded canvas lies inside the
pasted content box. -/
def inPadBox (w h tw th x y : Nat) : Prop :=
  (padGeom w h tw th).1 ≤ x ∧
  x < (padGeom w h tw th).1 + (padGeom w h tw th).2.2.1 ∧
  (padGeom w h tw th).2.1 ≤ y ∧
  y < (padGeom w h tw th).2.1 + (padGeom w h tw th).2.2.2

instance (w h tw th x y : Nat) : Decidable (inPadBox w h tw th x y) :=
  inferInstanceAs (Decidable ((padGeom w h tw th).1 ≤ x ∧
    x < (padGeom w h tw th).1 + (padGeom w h tw th).2.2.1 ∧
    (padGeom w h tw th).2.1 ≤ y ∧
    y < (padGeom w h tw th).2.1 + (padGeom w h tw th).2.2.2))

/-- A constant resampling kernel, used to instantiate the universally
quantified kernel on concrete inputs. -/
def kWitness : Kernel := fun _ _ _ _ _ => (0, 0, 0)

/-- A concrete 100×50 source image. -/
def imgWitness : Img := ⟨100, 50, fun _ _ => (0, 0, 0)⟩

/-- Crop box of PIL `ImageOps.fit(image, size, centering=(0.5, 0.5))`
with the default zero bleed: the largest centered sub-rectangle of the
source with the destination aspect. -/
def fitBox (img : Img) (size : Nat × Nat) : Box :=
  let w : Rat := img.width
  let h : Rat := img.height
  let tw : Rat := size.1
  let th : Rat := size.2
  if w * th = h * tw then (0, 0, w, h)
  else if h * tw < w * th then
    let cw := tw / th * h
    ((w - cw) / 2, 0, (w - cw) / 2 + cw, h)
  else
    let ch := w / tw * th
    (0, (h - ch) / 2, w, (h - ch) / 2 + ch)

/-- PIL `ImageOps.fit` (called at source line 50): resize the fit
crop box to exactly the requested size. -/
def fit (k : Kernel) (img : Img) (size : Nat × Nat) : Img :=
  resizeBox k img (fitBox img size) size

/-- The strategy dispatch of `convert_image` (source lines 48-55):
mode `scale` applies `ImageOps.fit`, mode `cut` applies
`ImageOps.pad` with white fill, and any other mode raises
`ValueError(f"Unknown mode: ...")`. -/
def resample (k : Kernel) (mode : String) (img : Img) (tw th : Nat) :
    Except String Img :=
  if mode = "scale" then Except.ok (fit k img (tw, th))
  else if mode = "cut" then Except.ok (pad k img (tw, th) (255, 255, 255))
  else Except.error ("Unknown mode: " ++ mode)

/-- The quantization step (source line 62):
`output_image.quantize(dither=..., palette=pal_image).convert('RGB')`.
`quantize` yields a same-size "P"-mode image whose byte pixels index
the installed palette; the dithering algorithm only decides which
index each pixel receives, so the index map is kept abstract, and
`convert('RGB')` expands each index through the palette. -/
def quantizedImage (out : Img) (quantIdx : Nat → Nat → Nat) : Img :=
  { width := out.width
    height := out.height
    pix := fun x y => convertPtoRGB (quantIdx x y) }

/-! ### Path handling (pathlib model) -/

/-- Index of the last occurrence of a dot in a character list
(Python `str.rfind('.')`, returning `none` instead of `-1`). -/
def rfindDot : List Char → Option Nat
  | [] => none
  | c :: rest =>
    match rfindDot rest with
    | some i => some (i + 1)
    | none => if c = '.' then some 0 else none

/-- pathlib `PurePath.stem`: the final component's name with its last
suffix removed; a dot at position zero (hidden file) or at the very
end does not start a suffix. -/
def pyStem (name : String) : String :=
  let cs := name.toList
  match rfindDot cs with
  | some i => if 0 < i ∧ i < cs.length - 1 then String.mk (cs.take i) else name
  | none => name

/-- pathlib `PurePath.suffix`: the last dot-suffix of the final
component, or the empty string under the same provisos as `pyStem`. -/
def pySuffix (name : String) : String :=
  let cs := name.toList
  match rfindDot cs with
  | some i => if 0 < i ∧ i < cs.length - 1 then String.mk (cs.drop i) else ""
  | none => ""

/-- Split a character list on a separator character
(Python `str.split(sep)` on a single-character separator). -/
def splitOnChar (sep : Char) : List Char → List (List Char)
  | [] => [[]]
  | c :: rest =>
    let r := splitOnChar sep rest
    if c = sep then [] :: r
    else
      match r with
      | [] => [[c]]
      | g :: gs => (c :: g) :: gs

/-- The slash-separated components of a path string. -/
def splitPath (p : String) : List String :=
  (splitOnChar '/' p.toList).map String.mk

/-- The final component of a slash-separated path
(pathlib `PurePath.name`). -/
def pathFileName (p : String) : String := (splitPath p).getLastD p

/-- pathlib `PurePath.with_name`: replace the final component. -/
def pyWithName (p n : String) : String :=
  String.intercalate "/" ((splitPath p).dropLast ++ [n])

/-- Python `str.lower()`, character by character (the extensions being
compared are ASCII, for which this is exact). -/
def lowerString (s : String) : String :=
  String.mk (s.toList.map Char.toLower)

/-- The extension filter of `process_path` (source lines 76 and 82):
`path.suffix.lower() in ('.jpg', '.jpeg', '.png')`. -/
def matchesExt (p : String) : Bool :=
  ([".jpg", ".jpeg", ".png"] : List String).contains
    (lowerString (pySuffix (pathFileName p)))

/-- The destination path computed at source line 65:
`input_path.with_name(f"{input_path.stem}_{mode}_output.bmp")`. -/
def output_filename (p : String) (mode : String) : String :=
  pyWithName p (pyStem (pathFileName p) ++ "_" ++ mode ++ "_output.bmp")

/-- `Image.save` at source line 66, seen as a store update: the
destination now holds the image, whatever the store held before. -/
def saveImage (store : String → Option Img) (p : String) (img : Img) :
    String → Option Img :=
  fun q => if q = p then some img else store q

/-! ### Filesystem walking (`process_path`, source lines 73-85) -/

/-- A directory entry below the root: its full path, its depth below
the root (1 = direct child) and whether it is a regular file. -/
structure Entry where
  path : String
  depth : Nat
  isFile : Bool

/-- What `process_path` observes about its argument: whether the root
is a file or a directory, and the entries below it when it is a
directory. -/
structure FSView where
  isFile : Bool
  isDir : Bool
  rootPath : String
  entries : List Entry

/-- Lexicographic comparison of character lists, the order Python uses
on path strings (an executable counterpart of the standard string
order; see `charListLe_iff`). -/
def charListLe : List Char → List Char → Bool
  | [], _ => true
  | _ :: _, [] => false
  | a :: as, b :: bs =>
    if a < b then true
    else if b < a then false
    else charListLe as bs

theorem charListLe_iff (as bs : List Char) :
    charListLe as bs = true ↔ ¬ bs < as := by
  induction as generalizing bs with
  | nil =>
    simp only [charListLe]
    exact iff_of_true (by simp) (List.Lex.not_nil_right _ _)
  | cons a as ih =>
    cases bs with
    | nil =>
      simp only [charListLe]
      exact iff_of_false (by simp) (not_not_intro List.Lex.nil)
    | cons b bs =>
      simp only [charListLe]
      by_cases hab : a < b
      · rw [if_pos hab]
        refine iff_of_true rfl ?_
        intro h
        cases h with
        | cons h2 => exact absurd hab (lt_irrefl _)
        | rel h2 => exact lt_asymm hab h2
      · rw [if_neg hab]
        by_cases hba : b < a
        · rw [if_pos hba]
          exact iff_of_false (by simp) (not_not_intro (List.Lex.rel hba))
        · rw [if_neg hba]
          have heq : a = b := le_antisymm (not_lt.mp hba) (not_lt.mp hab)
          subst heq
          rw [ih bs]
          constructor
          · intro h hlt
            exact h (List.Lex.cons_iff.mp hlt)
          · intro h hlt
            exact h (List.Lex.cons hlt)

/-- Executable form of the standard string order. -/
def strLe (a b : String) : Bool := charListLe a.toList b.toList

theorem strLe_iff_le (a b : String) : strLe a b = true ↔ a ≤ b := by
  show charListLe a.toList b.toList = true ↔ a ≤ b
  rw [charListLe_iff, String.le_iff_toList_le]
  exact not_lt

/-- Path order on entries: Python sorts `Path` objects by their
string representation. -/
def entLE (a b : Entry) : Prop := strLe a.path b.path = true

instance : DecidableRel entLE := fun a b =>
  inferInstanceAs (Decidable (strLe a.path b.path = true))

instance : IsTotal Entry entLE :=
  ⟨fun a b => (le_total a.path b.path).imp
    (strLe_iff_le a.path b.path).mpr (strLe_iff_le b.path a.path).mpr⟩

instance : IsTrans Entry entLE :=
  ⟨fun a b c h₁ h₂ => (strLe_iff_le a.path c.path).mpr
    (le_trans ((strLe_iff_le a.path b.path).mp h₁)
      ((strLe_iff_le b.path c.path).mp h₂))⟩

/-- What `process_path` emits: the input paths passed to
`convert_image`, in call order, and the invalid-path error messages. -/
structure PPResult where
  converted : List String
  errors : List String

/-- `process_path` (source lines 73-85).  A file root is converted
iff its extension matches; a directory root is globbed (`'**/*'` when
recursive, every entry at any depth; `'*'` otherwise, the depth-1
entries), sorted, and each entry that is a file with a matching
extension is converted; any other root only reports an error. -/
def process_path (fs : FSView) (recursive : Bool) : PPResult :=
  if fs.isFile then
    if matchesExt fs.rootPath then
      { converted := [fs.rootPath], errors := [] }
    else { converted := [], errors := [] }
  else if fs.isDir then
    let globbed := if recursive then fs.entries
      else fs.entries.filter (fun e => e.depth = 1)
    let sortedEs := List.insertionSort entLE globbed
    { converted :=
        (sortedEs.filter (fun e => e.isFile && matchesExt e.path)).map
          (fun e => e.path)
      errors := [] }
  else
    { converted := []
      errors := ["Error: Path " ++ fs.rootPath ++
        " does not exist or is not a valid file/directory."] }

/-! ### Control flow of `convert_image` (source lines 30-71) -/

/-- Observable steps of one `convert_image` call, in program order. -/
inductive Step
  | openImg
  | convertRGB
  | resampleOp
  | quantizeOp
  | saveOp
  | raiseValueError
  | printSuccess
  | printError (path : String)
deriving DecidableEq, Repr

/-- Which of the fallible operations succeed on this input: opening
and decoding the file, resampling, quantizing, saving. -/
structure Oracle where
  openOk : Bool
  resampleOk : Bool
  quantizeOk : Bool
  saveOk : Bool

/-- The Python exceptions the body of `convert_image` can raise. -/
inductive PyExc
  | ioError
  | valueError (mode : String)
  | resampleError
  | quantizeError
  | saveError

/-- The `try` body of `convert_image` (source lines 31-68): open and
decode, pick the strategy (an unknown mode raises `ValueError` here,
after the image was already opened and converted to RGB), resample,
quantize, save.  Returns the steps performed and the exception that
interrupted them, if any. -/
def convertBody (mode : String) (o : Oracle) : List Step × Option PyExc :=
  if o.openOk = false then ([], some PyExc.ioError)
  else
    let evs := [Step.openImg, Step.convertRGB]
    if mode = "scale" ∨ mode = "cut" then
      if o.resampleOk = false then (evs, some PyExc.resampleError)
      else if o.quantizeOk = false then
        (evs ++ [Step.resampleOp], some PyExc.quantizeError)
      else if o.saveOk = false then
        (evs ++ [Step.resampleOp, Step.quantizeOp], some PyExc.saveError)
      else (evs ++ [Step.resampleOp, Step.quantizeOp, Step.saveOp], none)
    else (evs ++ [Step.raiseValueError], some (PyExc.valueError mode))

/-- `convert_image` (source lines 30-71): the body under
`try ... except Exception`; a normal finish prints the success
message and returns `True`, any exception is caught, reported with
the input path, and turned into `False`. -/
def convert_image_trace (path mode : String) (o : Oracle) :
    List Step × Bool :=
  match convertBody mode o with
  | (evs, none) => (evs ++ [Step.printSuccess], true)
  | (evs, some _) => (evs ++ [Step.printError path], false)

/-- The directory loop of `process_path` with the per-file outcomes:
each discovered path is handed to `convert_image`, whose result is
not inspected (source lines 77 and 83), so every discovered path is
processed no matter how the previous calls ended. -/
def processRun (fs : FSView) (recursive : Bool) (mode : String)
    (o : String → Oracle) : List (String × (List Step × Bool)) :=
  (process_path fs recursive).converted.map
    (fun p => (p, convert_image_trace p mode (o p)))

/-! ### Helper lemmas -/

/-- Every entry of the installed 256-entry table is one of the six
distinct display colors (the two black slots hold the same triple,
and the padding is black). -/
theorem epaperEntries_mem_colors :
    ∀ e ∈ epaperEntries,
      e ∈ ([(0, 0, 0), (255, 255, 255), (255, 255, 0), (255, 0, 0),
            (0, 0, 255), (0, 255, 0)] : List RGB) := by decide

theorem epaperEntries_length : epaperEntries.length = 256 := by decide

/-- Whatever exception interrupts the body, `convert_image` reports it
with the input path and returns `False`; a normal finish prints the
success message and returns `True`. -/
theorem convert_image_trace_cases (path mode : String) (o : Oracle) :
    ((convert_image_trace path mode o).2 = false →
      Step.printError path ∈ (convert_image_trace path mode o).1) ∧
    ((convert_image_trace path mode o).2 = true →
      Step.printSuccess ∈ (convert_image_trace path mode o).1) := by
  rcases h : convertBody mode o with ⟨evs, exc⟩
  cases exc <;> simp [convert_image_trace, h]

/-- Python rounding never exceeds a strict rational upper bound:
`num/den < b` implies `round(num/den) ≤ b`. -/
theorem pyRound_le (num den b : Nat) (hden : 0 < den) (h : num < den * b) :
    pyRound num den ≤ b := by
  have h3 : num / den < b := (Nat.div_lt_iff_lt_mul hden).mpr (by
    rw [Nat.mul_comm]; exact h)
  unfold pyRound
  split
  · omega
  · split
    · omega
    · split <;> omega

/-- `round(m/2)` splits `m` into two parts differing by at most one. -/
theorem pyRound_half_bounds (m : Nat) :
    pyRound m 2 ≤ m ∧ 2 * pyRound m 2 ≤ m + 1 ∧ m ≤ 2 * pyRound m 2 + 1 := by
  unfold pyRound
  split
  · omega
  · split
    · omega
    · split <;> omega

/-- `ImageOps.contain` never exceeds the requested size and is exact
on at least one axis. -/
theorem containSize_spec (w h tw th : Nat) (hw : 0 < w) (hh : 0 < h) :
    (containSize w h tw th).1 ≤ tw ∧ (containSize w h tw th).2 ≤ th ∧
    ((containSize w h tw th).1 = tw ∨ (containSize w h tw th).2 = th) := by
  by_cases h1 : w * th = h * tw
  · simp [containSize, if_pos h1]
  · by_cases h2 : h * tw < w * th
    · have hp := pyRound_le (h * tw) w th hw h2
      simp [containSize, if_neg h1, if_pos h2, hp]
    · have h3 : w * th < h * tw :=
        Nat.lt_of_le_of_ne (Nat.le_of_not_lt h2) h1
      have hp := pyRound_le (w * th) h tw hh h3
      simp [containSize, if_neg h1, if_neg h2, hp]

/-- The paste geometry of `ImageOps.pad` is a centered fit. -/
theorem padGeom_spec (w h tw th : Nat) (hw : 0 < w) (hh : 0 < h) :
    padGeomFits w h tw th := by
  obtain ⟨hc1, hc2, hc3⟩ := containSize_spec w h tw th hw hh
  by_cases hcase : (containSize w h tw th).1 = tw ∧
      (containSize w h tw th).2 = th
  · unfold padGeomFits
    simp only [padGeom, if_pos hcase]
    omega
  · by_cases hne : (containSize w h tw th).1 ≠ tw
    · have hceq : (containSize w h tw th).2 = th := hc3.resolve_left hne
      have hb := pyRound_half_bounds (tw - (containSize w h tw th).1)
      unfold padGeomFits
      simp only [padGeom, if_neg hcase, if_pos hne]
      omega
    · have hceq : (containSize w h tw th).1 = tw := not_not.mp hne
      have hb := pyRound_half_bounds (th - (containSize w h tw th).2)
      unfold padGeomFits
      simp only [padGeom, if_neg hcase, if_neg hne]
      omega

/-! ### Claims -/

/-- C8: the palette constant is a table of exactly 256 RGB entries
whose first 7, in order, are black, white, yellow, red, black
(duplicate), blue, green, and whose remaining 249 entries are all
black. -/
theorem palette_table_shape :
    epaperEntries.length = 256 ∧
    epaperEntries.take 7 =
      [(0, 0, 0), (255, 255, 255), (255, 255, 0), (255, 0, 0),
       (0, 0, 0), (0, 0, 255), (0, 255, 0)] ∧
    epaperEntries.drop 7 = List.replicate 249 ((0, 0, 0) : RGB) := by
  decide

/-- C1: whatever index the quantizer assigns to a pixel (dithered or
not), expanding it through the installed palette yields one of the 7
palette colors, the duplicate black collapsing to `(0,0,0)`; no pixel
of the quantized image holds any color outside this set. -/
theorem quantized_pixels_in_palette (out : Img) (quantIdx : Nat → Nat → Nat)
    (x y : Nat) (h : quantIdx x y < 256) :
    (quantizedImage out quantIdx).pix x y ∈
      ([(0, 0, 0), (255, 255, 255), (255, 255, 0), (255, 0, 0),
        (0, 0, 255), (0, 255, 0)] : List RGB) := by
  have hlen : quantIdx x y < epaperEntries.length := by
    rw [epaperEntries_length]; exact h
  have hpix : (quantizedImage out quantIdx).pix x y =
      epaperEntries.get ⟨quantIdx x y, hlen⟩ := by
    simp only [quantizedImage, convertPtoRGB]
    rw [List.getD_eq_getElem _ _ hlen]
    rfl
  rw [hpix]
  exact epaperEntries_mem_colors _
    (List.get_mem epaperEntries (quantIdx x y) hlen)

theorem quantized_pixels_in_palette_witness :
    (quantizedImage ⟨1, 1, fun _ _ => (7, 7, 7)⟩ (fun _ _ => 3)).pix 0 0 ∈
      ([(0, 0, 0), (255, 255, 255), (255, 255, 0), (255, 0, 0),
        (0, 0, 255), (0, 255, 0)] : List RGB) :=
  quantized_pixels_in_palette ⟨1, 1, fun _ _ => (7, 7, 7)⟩
    (fun _ _ => 3) 0 0 (by decide)

/-- C2: an explicit `landscape` override yields target (800,480) and
`portrait` yields (480,800), whatever the source dimensions; without
an override, `width > height` yields (800,480) and anything else,
equality included, yields (480,800). -/
theorem target_resolution_selection (w h : Nat) (d : Option String) :
    targetSize (some "landscape") w h = (800, 480) ∧
    targetSize (some "portrait") w h = (480, 800) ∧
    (d ≠ some "landscape" → d ≠ some "portrait" → h < w →
      targetSize d w h = (800, 480)) ∧
    (d ≠ some "landscape" → d ≠ some "portrait" → w ≤ h →
      targetSize d w h = (480, 800)) := by
  refine ⟨rfl, rfl, ?_, ?_⟩ <;> intro h1 h2 h3 <;>
    simp [targetSize, h1, h2] <;> omega

theorem target_resolution_selection_witness :
    targetSize (some "landscape") 400 900 = (800, 480) ∧
    targetSize (some "portrait") 1000 500 = (480, 800) ∧
    targetSize none 1000 500 = (800, 480) ∧
    targetSize none 500 500 = (480, 800) :=
  ⟨(target_resolution_selection 400 900 none).1,
   (target_resolution_selection 1000 500 none).2.1,
   (target_resolution_selection 1000 500 none).2.2.1 (by decide) (by decide)
     (by decide),
   (target_resolution_selection 500 500 none).2.2.2 (by decide) (by decide)
     (by decide)⟩

/-- C3 (counterexample): calling `convert_image` with the unknown mode
"bogus" on an input that opens fine produces the trace
open, decode-to-RGB, raise ValueError, report: the input file is
opened and decoded strictly before the invalid-mode error is raised,
so the error is not raised before any image I/O. -/
theorem mode_error_counterexample :
    (convert_image_trace "img.jpg" "bogus" ⟨true, true, true, true⟩).1 =
      [Step.openImg, Step.convertRGB, Step.raiseValueError,
       Step.printError "img.jpg"] ∧
    Step.openImg ∈
      ((convert_image_trace "img.jpg" "bogus" ⟨true, true, true, true⟩).1.takeWhile
        (fun s => s != Step.raiseValueError)) := by decide

/-- C3 (amended): for every mode outside {scale, cut}, when the input
opens successfully `convert_image` raises `ValueError` during strategy
selection — after the input file has been opened and decoded, but
before any resampling, quantization, or save — and, the exception
being caught at the function boundary, it returns `False`. -/
theorem mode_error_after_open (path mode : String) (o : Oracle)
    (h1 : mode ≠ "scale") (h2 : mode ≠ "cut") (h3 : o.openOk = true) :
    (convert_image_trace path mode o).1 =
      [Step.openImg, Step.convertRGB, Step.raiseValueError,
       Step.printError path] ∧
    (convert_image_trace path mode o).2 = false := by
  unfold convert_image_trace convertBody
  simp [h1, h2, h3]

theorem mode_error_after_open_witness :
    (convert_image_trace "a.png" "bogus" ⟨true, true, true, true⟩).1 =
      [Step.openImg, Step.convertRGB, Step.raiseValueError,
       Step.printError "a.png"] ∧
    (convert_image_trace "a.png" "bogus" ⟨true, true, true, true⟩).2 = false :=
  mode_error_after_open "a.png" "bogus" ⟨true, true, true, true⟩
    (by decide) (by decide) rfl

/-- C9: when the root is an existing file whose lowercased extension
is not one of .jpg/.jpeg/.png, `process_path` converts nothing and
emits no error message at all: the error branch is only reached when
the root is neither an existing file nor a directory. -/
theorem nonmatching_file_root_silent (fs : FSView) (recursive : Bool)
    (h1 : fs.isFile = true) (h2 : matchesExt fs.rootPath = false) :
    process_path fs recursive = { converted := [], errors := [] } := by
  simp [process_path, h1, h2]

theorem nonmatching_file_root_silent_witness :
    process_path ⟨true, false, "root/c.txt", []⟩ false =
      { converted := [], errors := [] } :=
  nonmatching_file_root_silent ⟨true, false, "root/c.txt", []⟩ false rfl
    (by decide)

/-- C10: `convert_image` is total and Boolean-valued: for every path,
mode and outcome of the fallible operations it either returns `True`
having saved the output and printed the success message, or catches
the exception and returns `False` after printing an error naming the
input; no exception escapes to the caller (the whole body sits under
`except Exception`). -/
theorem convert_image_total_boolean (path mode : String) (o : Oracle) :
    ((convert_image_trace path mode o).2 = true ∧
      Step.saveOp ∈ (convert_image_trace path mode o).1 ∧
      Step.printSuccess ∈ (convert_image_trace path mode o).1) ∨
    ((convert_image_trace path mode o).2 = false ∧
      Step.printError path ∈ (convert_image_trace path mode o).1) := by
  unfold convert_image_trace convertBody
  by_cases ho : o.openOk = false <;>
    by_cases hm : mode = "scale" ∨ mode = "cut" <;>
      by_cases hr : o.resampleOk = false <;>
        by_cases hq : o.quantizeOk = false <;>
          by_cases hs : o.saveOk = false <;>
            simp [ho, hm, hr, hq, hs]

/-- C7: the destination is the input path's parent directory, with
filename the input's stem, an underscore, the mode, and
`_output.bmp`; saving overwrites whatever the destination previously
held. -/
theorem output_path_naming (p mode : String) (store : String → Option Img)
    (img : Img) :
    output_filename p mode =
      String.intercalate "/" ((splitPath p).dropLast ++
        [pyStem (pathFileName p) ++ "_" ++ mode ++ "_output.bmp"]) ∧
    saveImage store (output_filename p mode) img (output_filename p mode) =
      some img ∧
    output_filename "photo.jpg" "scale" = "photo_scale_output.bmp" ∧
    output_filename "some/dir/photo.jpg" "scale" =
      "some/dir/photo_scale_output.bmp" := by
  refine ⟨rfl, ?_, by decide, by decide⟩
  simp [saveImage]

/-- C5: per-file failures do not abort a batch: whatever the outcome
oracle says about each file, the run hands every discovered path to
`convert_image` (the loop never inspects its Boolean result), and any
file whose conversion fails has an error reported naming its path. -/
theorem per_file_failures_do_not_abort (fs : FSView) (recursive : Bool)
    (mode : String) (o : String → Oracle) :
    (processRun fs recursive mode o).map Prod.fst =
      (process_path fs recursive).converted ∧
    ∀ p ∈ (process_path fs recursive).converted,
      (convert_image_trace p mode (o p)).2 = false →
        Step.printError p ∈ (convert_image_trace p mode (o p)).1 := by
  constructor
  · simp [processRun, Function.comp_def]
  · intro p _ hfail
    exact (convert_image_trace_cases p mode (o p)).1 hfail

theorem per_file_failures_do_not_abort_witness :
    Step.printError "root/a.png" ∈
      (convert_image_trace "root/a.png" "scale"
        (⟨false, true, true, true⟩ : Oracle)).1 :=
  (per_file_failures_do_not_abort
      ⟨false, true, "root",
        [⟨"root/a.png", 1, true⟩, ⟨"root/b.jpg", 1, true⟩]⟩
      false "scale" (fun _ => ⟨false, true, true, true⟩)).2
    "root/a.png" (by decide) (by decide)

/-- C6: for a directory root, the converted paths are exactly the
entries that are files with a case-insensitively matching extension
(.jpg/.jpeg/.png) — at depth 1 when the recursive flag is off, at any
depth when it is on — and they are visited in sorted path order; for
a file root, exactly that file is converted when its extension
matches. -/
theorem walker_selects_matching_files (fs : FSView) (recursive : Bool) :
    (fs.isFile = true →
      (process_path fs recursive).converted =
        if matchesExt fs.rootPath then [fs.rootPath] else []) ∧
    (fs.isFile = false → fs.isDir = true →
      List.Sorted (fun a b : String => a ≤ b)
        (process_path fs recursive).converted ∧
      ∀ p, p ∈ (process_path fs recursive).converted ↔
        ∃ e ∈ fs.entries, e.path = p ∧ e.isFile = true ∧
          matchesExt p = true ∧ (recursive = true ∨ e.depth = 1)) := by
  constructor
  · intro h1
    simp only [process_path, h1, if_pos]
    split <;> rfl
  · intro h1 h2
    have hred : (process_path fs recursive).converted =
        ((List.insertionSort entLE (if recursive then fs.entries
            else fs.entries.filter (fun e => e.depth = 1))).filter
          (fun e => e.isFile && matchesExt e.path)).map (fun e => e.path) := by
      simp [process_path, h1, h2]
    rw [hred]
    have hglob : ∀ e : Entry, (e ∈ (if recursive then fs.entries
        else fs.entries.filter (fun e => e.depth = 1))) ↔
        (e ∈ fs.entries ∧ (recursive = true ∨ e.depth = 1)) := by
      intro e
      rcases recursive with _ | _
      · simp [List.mem_filter]
      · simp
    constructor
    · have hs : List.Pairwise entLE
          (List.insertionSort entLE (if recursive then fs.entries
            else fs.entries.filter (fun e => e.depth = 1))) :=
        List.sorted_insertionSort entLE _
      have hf : List.Pairwise entLE
          ((List.insertionSort entLE (if recursive then fs.entries
            else fs.entries.filter (fun e => e.depth = 1))).filter
              (fun e => e.isFile && matchesExt e.path)) :=
        List.Pairwise.sublist (List.filter_sublist _) hs
      exact List.Pairwise.map _
        (fun a b hab => (strLe_iff_le a.path b.path).mp hab) hf
    · intro p
      rw [List.mem_map]
      constructor
      · rintro ⟨e, hmem, rfl⟩
        rw [List.mem_filter] at hmem
        obtain ⟨hin, hpred⟩ := hmem
        rw [List.mem_insertionSort] at hin
        rw [Bool.and_eq_true] at hpred
        obtain ⟨hein, hcond⟩ := (hglob e).mp hin
        exact ⟨e, hein, rfl, hpred.1, hpred.2, hcond⟩
      · rintro ⟨e, he, rfl, hf, hm, hd⟩
        refine ⟨e, ?_, rfl⟩
        rw [List.mem_filter, List.mem_insertionSort, Bool.and_eq_true]
        exact ⟨(hglob e).mpr ⟨he, hd⟩, hf, hm⟩

theorem walker_selects_matching_files_witness :
    List.Sorted (fun a b : String => a ≤ b)
      (process_path ⟨false, true, "root",
        [⟨"root/b.jpg", 1, true⟩, ⟨"root/a.png", 1, true⟩,
         ⟨"root/sub/c.jpeg", 2, true⟩, ⟨"root/c.txt", 1, true⟩]⟩
        false).converted :=
  ((walker_selects_matching_files ⟨false, true, "root",
      [⟨"root/b.jpg", 1, true⟩, ⟨"root/a.png", 1, true⟩,
       ⟨"root/sub/c.jpeg", 2, true⟩, ⟨"root/c.txt", 1, true⟩]⟩ false).2
    rfl rfl).1

/-- C4: for every source image and kernel, the resampled output has
exactly the resolved target dimensions in both modes; in mode `cut`
the source is contained (scaled uniformly to fit inside the target
without cropping, touching it on one axis), pasted centered, and
every canvas pixel outside the pasted content box is solid white. -/
theorem output_dims_and_cut_padding (k : Kernel) (img : Img)
    (d : Option String) (tw th : Nat)
    (hw : 0 < img.width) (hh : 0 < img.height)
    (ht : targetSize d img.width img.height = (tw, th)) :
    (∀ res, resample k "scale" img tw th = Except.ok res →
      res.width = tw ∧ res.height = th) ∧
    (∀ res, resample k "cut" img tw th = Except.ok res →
      res.width = tw ∧ res.height = th ∧
      padGeomFits img.width img.height tw th ∧
      ∀ x y, x < tw → y < th →
        ¬ inPadBox img.width img.height tw th x y →
        res.pix x y = (255, 255, 255)) := by
  constructor
  · intro res hres
    have hfit : fit k img (tw, th) = res := by
      simpa [resample] using hres
    rw [← hfit]
    exact ⟨rfl, rfl⟩
  · intro res hres
    have hpad : pad k img (tw, th) (255, 255, 255) = res := by
      simpa [resample] using hres
    rw [← hpad]
    refine ⟨rfl, rfl, padGeom_spec img.width img.height tw th hw hh, ?_⟩
    intro x y _ _ hnot
    simp only [inPadBox] at hnot
    simp only [pad]
    rw [if_neg hnot]

theorem output_dims_and_cut_padding_witness :
    (fit kWitness imgWitness (800, 480)).width = 800 ∧
    (pad kWitness imgWitness (800, 480) (255, 255, 255)).pix 0 0 =
      (255, 255, 255) :=
  ⟨((output_dims_and_cut_padding kWitness imgWitness none 800 480
      (by decide) (by decide) (by decide)).1
    (fit kWitness imgWitness (800, 480)) rfl).1,
   (((output_dims_and_cut_padding kWitness imgWitness none 800 480
      (by decide) (by decide) (by decide)).2
    (pad kWitness imgWitness (800, 480) (255, 255, 255)) rfl).2.2.2)
    0 0 (by decide) (by decide) (by decide)⟩

end ConvertOBMP
